import Mathlib

/-!
Verification of the lazyliner interactive view/state engine.

This file is a shallow embedding of the Go sources of the `lazyliner`
terminal client (packages `internal/app`, `internal/ui/views/issues`,
`internal/ui/views/kanban`, `internal/ui/components`, `internal/linear`).
Pure Go functions become Lean functions over the same data; Go slices
become `List`, Go `nil` pointers become `Option`, Go `string` becomes
`String`, and Go `int` / `time.Time` become `Int` (Go ints are 64-bit and
every value manipulated here stays far from the boundary, so unbounded
integers are a faithful model; `time.Time` instants are modelled as Unix
nanoseconds, with `t1.After t2` being `t1 > t2`).

Terminal styling (`lipgloss` / `theme` styles) only wraps a rendered text
fragment in ANSI colour escape sequences or pads it with spaces; it never
inserts or removes letters inside a fragment.  Styles are therefore
modelled as the identity on the styled text; the substring claims proved
below about words such as "Unknown" or "Unassigned" are unaffected by
that choice.
-/

namespace Lazyliner

/-! ## Data model (internal/linear/types.go) -/

/-- `linear.WorkflowState` (types.go). -/
structure WorkflowState where
  id : String
  name : String
  color : String
  type : String
  position : Int
  deriving Repr, DecidableEq

/-- `linear.User` (types.go); only the fields the embedded code reads. -/
structure User where
  id : String
  name : String
  displayName : String
  email : String
  deriving Repr, DecidableEq

/-- `linear.Team` (types.go). -/
structure Team where
  id : String
  name : String
  key : String
  deriving Repr, DecidableEq

/-- `linear.Project` (types.go). -/
structure Project where
  id : String
  name : String
  icon : String
  deriving Repr, DecidableEq

/-- `linear.Label` (types.go). -/
structure Label where
  id : String
  name : String
  color : String
  deriving Repr, DecidableEq

/-- `linear.Issue` (types.go).  Pointer-typed relations are `Option`s;
`CreatedAt`/`UpdatedAt` are Unix-nanosecond instants. -/
structure Issue where
  id : String
  identifier : String
  title : String
  description : String
  priority : Int
  createdAt : Int
  updatedAt : Int
  dueDate : Option String
  branchName : String
  url : String
  state : Option WorkflowState
  assignee : Option User
  team : Option Team
  project : Option Project
  labels : List Label
  deriving Repr, DecidableEq

/-- `linear.PageInfo` (types.go). -/
structure PageInfo where
  hasNextPage : Bool
  endCursor : String
  deriving Repr, DecidableEq

/-! ## Sorting engine (internal/app/app.go: stateTypePriority, sortIssues) -/

/-- `stateTypePriority` (app.go).  Lower values appear first; unknown
state types fall to the `default` arm and get 3. -/
def stateTypePriority (stateType : String) : Int :=
  if stateType = "started" then 0
  else if stateType = "unstarted" then 1
  else if stateType = "backlog" then 2
  else if stateType = "triage" then 3
  else if stateType = "completed" then 4
  else if stateType = "canceled" then 5
  else 3

/-- The state type `sortIssues` reads off an issue: `State.Type`,
defaulting to `"unstarted"` when `State` is nil (app.go:1479-1487). -/
def issueStateType (i : Issue) : String :=
  match i.state with
  | some s => s.type
  | none => "unstarted"

/-- Priority remapping inside the `sortIssues` comparator: 0 ("no
priority") is treated as 5 so it sorts after priorities 1-4
(app.go:1501-1507). -/
def effectivePriority (p : Int) : Int :=
  if p = 0 then 5 else p

/-- The `less` closure passed to `sort.SliceStable` in `sortIssues`
(app.go:1475-1515): state-type priority, then remapped priority, then
`UpdatedAt.After` (most recent first). -/
def lessIssue (a b : Issue) : Bool :=
  let spA := stateTypePriority (issueStateType a)
  let spB := stateTypePriority (issueStateType b)
  if spA ≠ spB then decide (spA < spB)
  else
    let pA := effectivePriority a.priority
    let pB := effectivePriority b.priority
    if pA ≠ pB then decide (pA < pB)
    else decide (b.updatedAt < a.updatedAt)

/-- The non-strict order induced by `lessIssue`: `a` may stay before `b`
iff `b` is not strictly less than `a`. -/
def leIssue (a b : Issue) : Bool := ! lessIssue b a

/-- `sortIssues` (app.go:1471-1518).  `sort.SliceStable` is a stable sort
with respect to the supplied `less`; for a strict weak order the stable
sorted result is unique, so stable insertion sort with the induced
non-strict order `leIssue` is a faithful model. -/
def sortIssues (issuesList : List Issue) : List Issue :=
  issuesList.insertionSort (fun a b => leIssue a b = true)

/-- The full sort key of an issue: state-type rank, remapped priority,
and updated instant (compared descending). -/
def sortKey (i : Issue) : Int × Int × Int :=
  (stateTypePriority (issueStateType i), effectivePriority i.priority, i.updatedAt)

/-! ## Pagination de-duplication (app.go: appendUniqueIssues) -/

/-- The loop body of `appendUniqueIssues` (app.go:1438-1444): `seen` is the
set of identifiers already in `result`; each new issue is appended only if
its identifier is unseen, and then marked seen. -/
def appendUniqueGo (seen : List String) (acc : List Issue) : List Issue → List Issue
  | [] => acc
  | i :: rest =>
    if i.id ∈ seen then appendUniqueGo seen acc rest
    else appendUniqueGo (i.id :: seen) (acc ++ [i]) rest

/-- `appendUniqueIssues` (app.go:1433-1446): seed `seen` with the
identifiers of `existing`, then run the append loop over `newIssues`. -/
def appendUniqueIssues (existing newIssues : List Issue) : List Issue :=
  appendUniqueGo (existing.map Issue.id) existing newIssues

/-- One-pass de-duplication keyed on a running `seen` set: what the append
loop adds beyond the accumulator. -/
def dedupNotSeen (seen : List String) : List Issue → List Issue
  | [] => []
  | i :: rest =>
    if i.id ∈ seen then dedupNotSeen seen rest
    else i :: dedupNotSeen (i.id :: seen) rest

/-! ## Patch-in-place on mutation response (app.go:534-543) -/

/-- The replace loop in the `IssueUpdatedMsg` success branch
(app.go:536-541): scan for the first issue with the updated issue's ID,
overwrite it, and `break`. -/
def replaceIssue (issuesList : List Issue) (u : Issue) : List Issue :=
  match issuesList with
  | [] => []
  | i :: rest => if i.id = u.id then u :: rest else i :: replaceIssue rest u

/-! ## Strings: `strings.ToLower` and `strings.Contains`

`strings.ToLower` maps each rune through `unicode.ToLower`; the claims
only involve the per-character nature of that map (and, in witnesses,
ASCII data), so the character table is modelled by its ASCII portion with
the identity elsewhere.  `strings.Contains s sub` holds iff `sub` occurs
as a contiguous substring of `s`. -/

/-- Per-character model of `unicode.ToLower`. -/
def toLowerChar (c : Char) : Char :=
  if 'A' ≤ c ∧ c ≤ 'Z' then Char.ofNat (c.toNat + 32) else c

/-- `strings.ToLower`. -/
def strToLower (s : String) : String :=
  String.mk (s.data.map toLowerChar)

/-- Does `sub` occur as a contiguous run inside the second list? -/
def hasSub (sub : List Char) : List Char → Bool
  | [] => sub.isEmpty
  | c :: rest => sub.isPrefixOf (c :: rest) || hasSub sub rest

/-- `strings.Contains s sub`. -/
def strContains (s sub : String) : Bool :=
  hasSub sub.data s.data

/-- Join a list of strings with a separator (`strings.Join`). -/
def joinWith (sep : String) : List String → String
  | [] => ""
  | [x] => x
  | x :: xs => x ++ sep ++ joinWith sep xs

/-- Split a character list at every character satisfying `p`, keeping
empty pieces (the splitting `strings.Split` performs per separator). -/
def splitChars (p : Char → Bool) : List Char → List (List Char)
  | [] => [[]]
  | x :: xs =>
    let r := splitChars p xs
    if p x then [] :: r
    else
      match r with
      | [] => [[x]]
      | y :: ys => (x :: y) :: ys

/-- Split a string at every character satisfying `p`. -/
def goSplit (s : String) (p : Char → Bool) : List String :=
  (splitChars p s.data).map String.mk

/-- Split a string into its newline-separated lines
(`strings.Split(s, "\n")` / `s.splitOn "\n"`). -/
def splitOnNl (s : String) : List String :=
  goSplit s (fun c => c = '\n')

/-! ## Search filter (app.go: Model.filterIssues loop, lines 881-889) -/

/-- The match predicate of the `filterIssues` loop: the lowered query is a
substring of the lowered title, identifier, or description.  `query` is
already lowered (app.go:881). -/
def issueMatchesQuery (query : String) (i : Issue) : Bool :=
  strContains (strToLower i.title) query ||
  strContains (strToLower i.identifier) query ||
  strContains (strToLower i.description) query

/-- The non-empty-query arm of `filterIssues` as a function of the search
source and the raw query (app.go:881-890): lower the query, keep matching
issues, sort. -/
def searchFilter (source : List Issue) (searchQuery : String) : List Issue :=
  sortIssues (source.filter (issueMatchesQuery (strToLower searchQuery)))

/-! ## View-model state (internal/ui/views/issues/list.go, detail.go;
internal/ui/components/picker.go) -/

/-- `issues.ListModel` (list.go). -/
structure ListModelS where
  issues : List Issue
  cursor : Int
  offset : Int
  width : Int
  height : Int
  pageSize : Int
  deriving Repr, DecidableEq

/-- `issues.NewListModel` (list.go:26-39). -/
def newListModel (issuesList : List Issue) (width height : Int) : ListModelS :=
  let pageSize := height - 2
  let pageSize := if pageSize < 1 then 10 else pageSize
  { issues := issuesList, cursor := 0, offset := 0,
    width := width, height := height, pageSize := pageSize }

/-- Modelled from the spec: `issues.NewListModelWithPagination` is called
from app.go:482 but its defining source file is not present under `src/`.
Per the spec, pagination only adds a "load more" indicator to the list
render; the constructor is therefore modelled as `NewListModel`, with the
has-next flag affecting the (unmodelled) footer only. -/
def newListModelWithPagination (issuesList : List Issue) (width height : Int)
    (_hasNextPage : Bool) : ListModelS :=
  newListModel issuesList width height

/-- `issues.DetailModel` (detail.go); the `issue` field is a possibly-nil
pointer. -/
structure DetailModelS where
  issue : Option Issue
  width : Int
  height : Int
  scrollY : Int
  maxScrollY : Int
  deriving Repr, DecidableEq

/-- `issues.NewDetailModel` (detail.go:24-31).  `maxScrollY` is the zero
value of the omitted struct field. -/
def newDetailModel (issue : Option Issue) (width height : Int) : DetailModelS :=
  { issue := issue, width := width, height := height, scrollY := 0, maxScrollY := 0 }

/-- `components.PickerItem` (picker.go). -/
structure PickerItem where
  id : String
  label : String
  icon : String
  desc : String
  deriving Repr, DecidableEq

/-- `components.PickerModel` (picker.go); the search text input is reduced
to its current value. -/
structure PickerS where
  title : String
  items : List PickerItem
  filteredItems : List PickerItem
  cursor : Int
  selected : String
  searchValue : String
  searchEnabled : Bool
  deriving Repr, DecidableEq

/-- `components.NewPickerModel` (picker.go:34-50). -/
def newPickerModel (title : String) (items : List PickerItem) : PickerS :=
  { title := title, items := items, filteredItems := items, cursor := 0,
    selected := "", searchValue := "", searchEnabled := true }

/-- `PickerModel.SelectedItem` (picker.go:131-137). -/
def pickerSelectedItem (p : PickerS) : Option PickerItem :=
  if h : 0 ≤ p.cursor ∧ p.cursor.toNat < p.filteredItems.length then
    some (p.filteredItems.get ⟨p.cursor.toNat, h.2⟩)
  else none

/-! ## Mutation payloads (internal/linear/types.go: IssueUpdateInput) -/

/-- `linear.IssueUpdateInput` (types.go:130-142).  Every pointer field is
an `Option` whose `none` is Go's nil pointer. -/
structure IssueUpdateInput where
  title : Option String := none
  description : Option String := none
  assigneeID : Option String := none
  stateID : Option String := none
  priority : Option Int := none
  estimate : Option Int := none
  projectID : Option String := none
  cycleID : Option String := none
  labelIDs : List String := []
  parentID : Option String := none
  dueDate : Option String := none
  deriving Repr, DecidableEq

/-! ## Messages and commands (internal/app/messages.go, app.go) -/

/-- `linear.Viewer` (types.go). -/
structure Viewer where
  id : String
  name : String
  email : String
  deriving Repr, DecidableEq

/-- The completion messages dispatched through `Model.Update` that the
claims exercise; `err` is the optional `Err` field (`error.Error()` text
when non-nil). -/
inductive Msg where
  | dataLoaded (viewer : Option Viewer) (teams : List Team)
      (projects : List Project) (matchedProject : Option Project)
      (err : Option String)
  | issuesLoaded (issues : List Issue) (pageInfo : PageInfo)
      (append : Bool) (err : Option String)
  | issueCreated (issue : Option Issue) (err : Option String)
  | issueUpdated (issue : Option Issue) (err : Option String)
  | issueDeleted (issueID : String) (identifier : String) (err : Option String)
  deriving Repr, DecidableEq

/-- The asynchronous commands `Model.Update` can return (`tea.Cmd`
values); `none` is Go's nil command. -/
inductive Cmd where
  | none
  | loadIssues
  | loadAllProjectIssues
  | loadStates
  | loadLabels
  | loadUsers
  | updateIssueCmd (issueID : String) (input : IssueUpdateInput)
  | updateIssueStateCmd (issueID : String) (stateID : String)
  | deleteIssueCmd (issueID : String) (identifier : String)
  | textinputCmd
  | batch (cmds : List Cmd)
  deriving Repr

/-- `tea.Batch(cmds...)` returns nil when given no commands. -/
def batchCmd (cmds : List Cmd) : Cmd :=
  if cmds.isEmpty then Cmd.none else Cmd.batch cmds

/-- `app.View` (app.go:25-36). -/
inductive View where
  | list | detail | create | edit | help | kanban | setup
  deriving Repr, DecidableEq

/-- `app.Tab` (app.go:38-47). -/
inductive Tab where
  | project | myIssues | allIssues | active | backlog
  deriving Repr, DecidableEq

/-- `app.Model` (app.go:50-102), restricted to the fields the embedded
dispatch logic reads or writes.  Omitted: config, keymap, client, spinner
(plumbing with no state the claims touch), and the create/edit/kanban/
help/setup sub-models, which none of the modelled messages modify; the
search text input is reduced to its current value. -/
structure AppState where
  view : View
  activeTab : Tab
  loading : Bool
  statusMsg : String
  statusErr : Bool
  showHelp : Bool
  searchMode : Bool
  searchValue : String
  searchQuery : String
  filteredIssues : List Issue
  allProjectIssues : List Issue
  pageInfo : PageInfo
  loadingMore : Bool
  listView : ListModelS
  detailView : DetailModelS
  issues : List Issue
  currentIssue : Option Issue
  currentProject : Option Project
  filterProject : Option Project
  picker : Option PickerS
  pickerType : String
  viewer : Option Viewer
  teams : List Team
  projects : List Project
  users : List User
  states : List WorkflowState
  labels : List Label
  width : Int
  height : Int
  deriving Repr, DecidableEq

/-- `Model.loadWorkflowStates` (app.go:351-360) returns a nil command when
there are no teams. -/
def loadWorkflowStatesCmd (s : AppState) : Cmd :=
  if s.teams.isEmpty then .none else .loadStates

/-- `Model.loadLabels` (app.go:363-372). -/
def loadLabelsCmd (s : AppState) : Cmd :=
  if s.teams.isEmpty then .none else .loadLabels

/-! ## Completion-message dispatch (app.go: Model.Update, lines 446-580) -/

/-- The completion-message cases of `Model.Update` relevant to the claims:
`DataLoadedMsg` (446-465), `IssuesLoadedMsg` (467-488), `IssueUpdatedMsg`
(527-554), `IssueCreatedMsg` (556-567), `IssueDeletedMsg` (569-580). -/
def handleMsg (s : AppState) : Msg → AppState × Cmd
  | .dataLoaded viewer teams projects matchedProject err =>
    match err with
    | some e =>
      ({ s with loading := false, statusMsg := "Error: " ++ e, statusErr := true }, .none)
    | none =>
      let s1 := { s with viewer := viewer, teams := teams, projects := projects,
                         currentProject := matchedProject }
      let s2 := if matchedProject.isSome then { s1 with activeTab := .project } else s1
      (s2, .batch [.loadIssues, loadWorkflowStatesCmd s2, loadLabelsCmd s2, .loadUsers])
  | .issuesLoaded issuesList pageInfo append err =>
    let s1 := { s with loading := false, loadingMore := false }
    match err with
    | some e =>
      ({ s1 with statusMsg := "Error loading issues: " ++ e, statusErr := true }, .none)
    | none =>
      let s2 := { s1 with pageInfo := pageInfo }
      let combined := if append then appendUniqueIssues s2.issues issuesList else issuesList
      let sorted := sortIssues combined
      let s3 := { s2 with issues := sorted,
                          listView := newListModelWithPagination sorted s2.width
                            (s2.height - 4) pageInfo.hasNextPage }
      let s4 :=
        if pageInfo.hasNextPage ∧ append = false then
          { s3 with statusMsg :=
              "Loaded " ++ toString sorted.length ++ " issues (more available, press L)" }
        else if append then
          { s3 with statusMsg := "Loaded " ++ toString sorted.length ++ " total issues" }
        else s3
      (s4, .none)
  | .issueUpdated issue err =>
    match err with
    | some e =>
      ({ s with statusMsg := "Error: " ++ e, statusErr := true }, .none)
    | none =>
      let s1 := { s with statusMsg := "Issue updated", statusErr := false }
      let s2 :=
        match issue with
        | some u =>
          let sorted := sortIssues (replaceIssue s1.issues u)
          let s2a := { s1 with issues := sorted,
                               listView := newListModel sorted s1.width (s1.height - 4) }
          match s2a.currentIssue with
          | some cur =>
            if cur.id = u.id then
              { s2a with currentIssue := some u,
                         detailView := newDetailModel (some u) s2a.width (s2a.height - 4) }
            else s2a
          | none => s2a
        | none => s1
      let s3 := if s2.view = View.edit then { s2 with view := .detail } else s2
      (s3, .none)
  | .issueCreated issue err =>
    match err with
    | some e =>
      ({ s with statusMsg := "Error creating issue: " ++ e, statusErr := true }, batchCmd [])
    | none =>
      match issue with
      | some u =>
        ({ s with statusMsg := "Issue created: " ++ u.identifier, statusErr := false,
                  view := .list }, batchCmd [.loadIssues])
      | none =>
        -- Unreachable per the client contract (a nil error implies a
        -- non-nil record); the Go code would dereference nil here.
        (s, .none)
  | .issueDeleted _ identifier err =>
    match err with
    | some e =>
      ({ s with statusMsg := "Error deleting issue: " ++ e, statusErr := true }, batchCmd [])
    | none =>
      ({ s with statusMsg := "Issue deleted: " ++ identifier, statusErr := false,
                view := .list, currentIssue := none }, batchCmd [.loadIssues])

/-! ## Search mode (app.go: Model.filterIssues 869-892,
Model.updateSearchMode 842-866) -/

/-- `Model.filterIssues` (app.go:869-892). -/
def filterIssuesState (s : AppState) : AppState :=
  if s.searchQuery = "" then
    { s with filteredIssues := [],
             listView := newListModel s.issues s.width (s.height - 4) }
  else
    let searchSource :=
      if s.activeTab = .project ∧ s.allProjectIssues.length > 0 then s.allProjectIssues
      else s.issues
    let filtered := searchFilter searchSource s.searchQuery
    { s with filteredIssues := filtered,
             listView := newListModel filtered s.width (s.height - 4) }

/-- Key events reaching `Model.updateSearchMode`; `input c` is any other
key, which the text input appends to its value (the text input also
returns its own cursor-blink command, which is not a data command). -/
inductive SearchKey where
  | esc
  | enter
  | input (value : String)
  deriving Repr, DecidableEq

/-- `Model.updateSearchMode` (app.go:842-866).  On a text key the input
model updates its value and `filterIssues` runs; the text input command
is modelled by `textinputCmd`. -/
def updateSearchMode (s : AppState) : SearchKey → AppState × Cmd
  | .esc =>
    ({ s with searchMode := false, searchQuery := "", searchValue := "",
              filteredIssues := [], allProjectIssues := [],
              listView := newListModel s.issues s.width (s.height - 4) }, .none)
  | .enter =>
    ({ s with searchMode := false, allProjectIssues := [] }, .none)
  | .input v =>
    let s1 := { s with searchValue := v, searchQuery := v }
    (filterIssuesState s1, .textinputCmd)

/-! ## Picker dispatch (app.go: Model.updatePicker 981-1004,
Model.handlePickerSelection 1007-1057) -/

/-- `fmt.Sscanf(s, "%d", &priority)` with `priority` initialised to 0:
yields the parsed decimal integer, or 0 when nothing parses.  The
priority picker items carry exactly the numerals "0".."4". -/
def sscanfInt (numeral : String) : Int :=
  match numeral.toInt? with
  | some n => n
  | none => 0

/-- `Model.handlePickerSelection` (app.go:1007-1057).

The Go method has a value receiver, unnamed results, and
`defer func() { m.picker = nil; m.pickerType = "" }()`.  Deferred
functions run **after** the result values have been copied out, so on the
`status`/`assignee`/`priority` paths, which return before the switch
ends, the deferred reset mutates a dead local copy and the *returned*
model still carries the open picker.  Only the `project` case and the
shared fall-through (app.go:1048-1056) clear the picker before
returning.  The model reproduces exactly what each `return` statement
captures. -/
def handlePickerSelection (s : AppState) (item : PickerItem) : AppState × Cmd :=
  if s.pickerType = "status" then
    match s.currentIssue with
    | some cur => (s, .updateIssueStateCmd cur.id item.id)
    | none => ({ s with picker := none, pickerType := "" }, .none)
  else if s.pickerType = "assignee" then
    match s.currentIssue with
    | some cur =>
      (s, .updateIssueCmd cur.id { assigneeID := some item.id })
    | none => ({ s with picker := none, pickerType := "" }, .none)
  else if s.pickerType = "priority" then
    match s.currentIssue with
    | some cur =>
      -- fmt.Sscanf(item.ID, "%d", &priority) leaves priority 0 unless a
      -- decimal integer parses; the picker items carry "0".."4".
      (s, .updateIssueCmd cur.id { priority := some (sscanfInt item.id) })
    | none => ({ s with picker := none, pickerType := "" }, .none)
  else if s.pickerType = "project" then
    let s1 :=
      if item.id = "" then
        { s with filterProject := none, statusMsg := "Showing all projects" }
      else
        match s.projects.find? (fun p => p.id = item.id) with
        | some p => { s with filterProject := some p, statusMsg := "Filtering by: " ++ p.name }
        | none => s
    ({ s1 with statusErr := false, loading := true, picker := none, pickerType := "" },
      .loadIssues)
  else
    ({ s with picker := none, pickerType := "" }, .none)

/-- Key events reaching `Model.updatePicker`; `other` covers the
navigation keys forwarded to the picker component. -/
inductive PickerKey where
  | esc
  | enter
  | other
  deriving Repr, DecidableEq

/-- `Model.updatePicker` (app.go:981-1004).  Navigation keys are forwarded
to the picker component; the claims do not depend on them, so `other`
leaves the picker component state abstract (identity step, as the
component only moves its own cursor / search field). -/
def updatePicker (s : AppState) : PickerKey → AppState × Cmd
  | .esc => ({ s with picker := none, pickerType := "" }, .none)
  | .enter =>
    match s.picker with
    | some p =>
      match pickerSelectedItem p with
      | some item => handlePickerSelection s item
      | none => ({ s with picker := none, pickerType := "" }, .none)
    | none => ({ s with picker := none, pickerType := "" }, .none)
  | .other => (s, .none)

/-! ## List navigation (list.go: ListModel.Update 53-96,
ListModel.SelectedIssue 99-104) -/

/-- The key events `ListModel.Update` reacts to (list.go:56-93); every
other key leaves the model unchanged. -/
inductive ListKey where
  | up | down | home | toEnd | pgUp | pgDown | otherKey
  deriving Repr, DecidableEq

/-- `ListModel.Update` (list.go:53-96). -/
def listUpdate (m : ListModelS) : ListKey → ListModelS
  | .up =>
    if m.cursor > 0 then
      let c := m.cursor - 1
      { m with cursor := c, offset := if c < m.offset then c else m.offset }
    else m
  | .down =>
    if m.cursor < (m.issues.length : Int) - 1 then
      let c := m.cursor + 1
      { m with cursor := c,
               offset := if c ≥ m.offset + m.pageSize then c - m.pageSize + 1 else m.offset }
    else m
  | .home => { m with cursor := 0, offset := 0 }
  | .toEnd =>
    let c := (m.issues.length : Int) - 1
    { m with cursor := c,
             offset := if c ≥ m.pageSize then c - m.pageSize + 1 else m.offset }
  | .pgUp =>
    let c0 := m.cursor - m.pageSize
    let c := if c0 < 0 then 0 else c0
    { m with cursor := c, offset := c }
  | .pgDown =>
    let c0 := m.cursor + m.pageSize
    let c := if c0 ≥ (m.issues.length : Int) then (m.issues.length : Int) - 1 else c0
    { m with cursor := c,
             offset := if c ≥ m.offset + m.pageSize then c - m.pageSize + 1 else m.offset }
  | .otherKey => m

/-- `ListModel.SelectedIssue` (list.go:99-104). -/
def listSelectedIssue (m : ListModelS) : Option Issue :=
  if h : 0 ≤ m.cursor ∧ m.cursor.toNat < m.issues.length then
    some (m.issues.get ⟨m.cursor.toNat, h.2⟩)
  else none

/-! ## Theme helpers (internal/ui/theme/styles.go, part_006) -/

/-- `theme.StatusIcon` (styles.go:205-220). -/
def statusIcon (status : String) : String :=
  if status = "backlog" ∨ status = "Backlog" then "📋"
  else if status = "todo" ∨ status = "Todo" ∨ status = "To Do" then "⚪"
  else if status = "in_progress" ∨ status = "In Progress" ∨ status = "inProgress" ∨
      status = "started" then "🟡"
  else if status = "done" ∨ status = "Done" ∨ status = "completed" then "🟢"
  else if status = "canceled" ∨ status = "Canceled" ∨ status = "cancelled" then "🚫"
  else "○"

/-- `theme.PriorityLabel` (part_006:71-84). -/
def priorityLabel (priority : Int) : String :=
  if priority = 1 then "Urgent"
  else if priority = 2 then "High"
  else if priority = 3 then "Medium"
  else if priority = 4 then "Low"
  else "None"

/-- `theme.PriorityIcon` (part_006:87-100). -/
def priorityIcon (priority : Int) : String :=
  if priority = 1 then "🔴"
  else if priority = 2 then "🟠"
  else if priority = 3 then "🔵"
  else if priority = 4 then "⚪"
  else "◽"

/-! ## Row and detail rendering (list.go: renderRow 161-217, padRight
219-225; util/strings.go: Truncate; detail.go).

`runewidth.StringWidth` counts terminal display cells; for the ASCII
metadata strings the claims evaluate it equals the character count, which
is how widths are modelled throughout.  Width-constrained styles pad with
spaces (modelled as identity, see the header comment). -/

/-- `util.Truncate` (util/strings.go). -/
def truncate (s : String) (width : Int) : String :=
  if width ≤ 0 then ""
  else if (s.length : Int) ≤ width then s
  else if width ≤ 3 then String.mk (s.data.take width.toNat)
  else String.mk (s.data.take (width - 3).toNat) ++ "..."

/-- `padRight` (list.go:219-225). -/
def padRight (s : String) (width : Int) : String :=
  if width ≤ (s.length : Int) then s
  else s ++ String.mk (List.replicate (width - s.length).toNat ' ')

/-- `ListModel.renderRow` (list.go:161-217), with styles as identity. -/
def renderRow (issue : Issue) (isSelected : Bool)
    (idWidth titleWidth statusWidth : Int) : String :=
  let cursor := if isSelected then "● " else "○ "
  let idPart := truncate issue.identifier idWidth
  let titlePart := truncate issue.title titleWidth
  let priorityPart := priorityIcon issue.priority ++ " " ++ priorityLabel issue.priority
  let statusName := match issue.state with | some st => st.name | none => "Unknown"
  let statusType := match issue.state with | some st => st.type | none => ""
  let statusPart := statusIcon statusType ++ " " ++ truncate statusName (statusWidth - 3)
  cursor ++ padRight idPart idWidth ++ "  " ++ padRight titlePart titleWidth ++ "  " ++
    priorityPart ++ "  " ++ statusPart

/-- `ListModel.View` (list.go:107-158): the centered "No issues found"
placeholder on an empty list, else the visible rows (scroll indicator and
selected-row styling do not affect the claims and follow the same
identity-style model; rows outside the list length are proven unreachable
in `listRender_safe`). -/
def listViewRender (m : ListModelS) : String :=
  if m.issues.length = 0 then "No issues found"
  else
    let stop := min (m.offset + m.pageSize) (m.issues.length : Int)
    let idWidth : Int := 10
    let titleWidth := if m.width - 10 - 30 < 20 then 20 else m.width - 10 - 30
    let rows := (List.range (stop - m.offset).toNat).map (fun k =>
      let i := m.offset.toNat + k
      match m.issues.get? i with
      | some issue => renderRow issue (decide ((i : Int) = m.cursor)) idWidth titleWidth 15
      | none => "")
    joinWith "\n" rows

/-! ## Detail rendering (detail.go) -/

def minuteNs : Int := 60 * 1000000000

def hourNs : Int := 60 * minuteNs

def dayNs : Int := 24 * hourNs

/-- Month abbreviations of Go's "Jan" layout token. -/
def monthAbbrev (m : Int) : String :=
  if m = 1 then "Jan" else if m = 2 then "Feb" else if m = 3 then "Mar"
  else if m = 4 then "Apr" else if m = 5 then "May" else if m = 6 then "Jun"
  else if m = 7 then "Jul" else if m = 8 then "Aug" else if m = 9 then "Sep"
  else if m = 10 then "Oct" else if m = 11 then "Nov" else "Dec"

/-- Civil date (year, month, day) from days since the Unix epoch
(proleptic Gregorian, the computation `time.Time` performs for UTC). -/
def civilFromDays (days : Int) : Int × Int × Int :=
  let z := days + 719468
  let era := Int.fdiv z 146097
  let doe := z - era * 146097
  let yoe := Int.fdiv (doe - Int.fdiv doe 1460 + Int.fdiv doe 36524 - Int.fdiv doe 146096) 365
  let doy := doe - (365 * yoe + Int.fdiv yoe 4 - Int.fdiv yoe 100)
  let mp := Int.fdiv (5 * doy + 2) 153
  let d := doy - Int.fdiv (153 * mp + 2) 5 + 1
  let m := mp + (if mp < 10 then 3 else -9)
  let y := yoe + era * 400 + (if m ≤ 2 then 1 else 0)
  (y, m, d)

/-- `t.Format("Jan 2, 2006")` for a UTC instant in nanoseconds. -/
def formatDate (t : Int) : String :=
  let (y, m, d) := civilFromDays (Int.fdiv t dayNs)
  monthAbbrev m ++ " " ++ toString d ++ ", " ++ toString y

/-- `formatRelativeTime` (detail.go:242-276), with `time.Now()` passed in
as `now`.  `int(d.Minutes())` etc. truncate toward zero; on every branch
taken the quotient is non-negative, where `Int` division agrees. -/
def formatRelativeTime (t now : Int) : String :=
  let diff := now - t
  if diff < minuteNs then "just now"
  else if diff < hourNs then
    let mins := diff / minuteNs
    if mins = 1 then "1 minute ago" else toString mins ++ " minutes ago"
  else if diff < 24 * hourNs then
    let hours := diff / hourNs
    if hours = 1 then "1 hour ago" else toString hours ++ " hours ago"
  else if diff < 7 * dayNs then
    let days := diff / dayNs
    if days = 1 then "1 day ago" else toString days ++ " days ago"
  else if diff < 30 * dayNs then
    let weeks := diff / (7 * dayNs)
    if weeks = 1 then "1 week ago" else toString weeks ++ " weeks ago"
  else formatDate t

/-- `strings.Fields`: split on whitespace, dropping empty pieces. -/
def goFields (s : String) : List String :=
  (goSplit s Char.isWhitespace).filter (fun w => w ≠ "")

/-- The inner loop of `wordWrap` (detail.go:296-306): greedy fill of
`currentLine`, flushing when the next word would exceed `width`. -/
def wrapWords (currentLine : String) (width : Int) : List String → String
  | [] => currentLine
  | w :: rest =>
    if (currentLine.length : Int) + 1 + w.length ≤ width then
      wrapWords (currentLine ++ " " ++ w) width rest
    else currentLine ++ "\n" ++ wrapWords w width rest

/-- `wordWrap` (detail.go:278-310). -/
def wordWrap (text : String) (width : Int) : String :=
  if width ≤ 0 then text
  else
    joinWith "\n" ((splitOnNl text).map (fun line =>
      match goFields line with
      | [] => ""
      | w :: rest => wrapWords w width rest))

/-- `DetailModel.renderDescription` (detail.go:201-220). -/
def renderDescription (issue : Issue) (width : Int) : String :=
  if issue.description = "" then "No description"
  else
    let maxWidth := if width - 8 < 40 then 40 else width - 8
    wordWrap issue.description maxWidth

/-- `lipgloss.JoinHorizontal` of two blocks and a separator: line-by-line
concatenation (column padding is spaces, modelled as identity). -/
def joinHorizontal2 (left sep right : String) : String :=
  let ll := splitOnNl left
  let rl := splitOnNl right
  let n := max ll.length rl.length
  joinWith "\n" ((List.range n).map (fun i => ll.getD i "" ++ sep ++ rl.getD i ""))

/-- The `parts` list built by `DetailModel.renderMetadata`
(detail.go:140-180).  Note: when the state relation is absent the
`Status:` line is *skipped entirely* (detail.go:143-147 guards on
`m.issue.State != nil` with no else). -/
def renderMetadataParts (issue : Issue) (now : Int) : List String :=
  (match issue.state with
    | some st => ["Status: " ++ statusIcon st.type ++ " " ++ st.name]
    | none => []) ++
    ["Priority: " ++ priorityIcon issue.priority ++ " " ++ priorityLabel issue.priority] ++
    ["Assignee: " ++ (match issue.assignee with | some a => a.name | none => "Unassigned")] ++
    (match issue.project with
      | some p => ["Project: " ++ p.name]
      | none => []) ++
    (match issue.team with
      | some t => ["Team: " ++ t.name]
      | none => []) ++
    (match issue.dueDate with
      | some d => if d ≠ "" then ["Due: " ++ d] else []
      | none => []) ++
    ["Created: " ++ formatRelativeTime issue.createdAt now] ++
    ["Updated: " ++ formatRelativeTime issue.updatedAt now]

/-- `DetailModel.renderMetadata` (detail.go:139-198): the parts split into
two columns (even indices left, odd right) and joined horizontally. -/
def renderMetadata (issue : Issue) (now : Int) : String :=
  let parts := renderMetadataParts issue now
  let leftCol := (parts.enum.filter (fun pi => pi.1 % 2 = 0)).map Prod.snd
  let rightCol := (parts.enum.filter (fun pi => pi.1 % 2 = 1)).map Prod.snd
  joinHorizontal2 (joinWith "\n" leftCol) "  " (joinWith "\n" rightCol)

/-- `DetailModel.renderHeader` (detail.go:121-136). -/
def renderHeader (issue : Issue) (width : Int) : String :=
  let back := "← ESC"
  let spacing := width - (back.length : Int) - issue.identifier.length - 8
  let spacing := if spacing < 0 then 0 else spacing
  back ++ String.mk (List.replicate spacing.toNat ' ') ++ issue.identifier

/-- `DetailModel.renderLabels` (detail.go:223-239). -/
def renderLabels (issue : Issue) : String :=
  if issue.labels.isEmpty then ""
  else "Labels: " ++ joinWith " " (issue.labels.map Label.name)

/-- `DetailModel.View` (detail.go:63-118): "No issue selected" placeholder
when the issue pointer is nil, else the vertically joined sections. -/
def detailViewRender (m : DetailModelS) (now : Int) : String :=
  match m.issue with
  | none => "No issue selected"
  | some issue =>
    let divider := String.mk (List.replicate (m.width - 4).toNat '─')
    let core := joinWith "\n"
      [renderHeader issue m.width, "", issue.title, "", renderMetadata issue now, "",
       divider, "", renderDescription issue m.width]
    let labels := renderLabels issue
    if labels ≠ "" then core ++ "\n" ++ "\n" ++ labels else core

/-! ## Kanban board (internal/ui/views/kanban/kanban.go) -/

/-- The `typeOrder` map inside `sortStatesByType` (kanban.go:331-337); a
missing key (e.g. "triage") yields the map's zero value 0. -/
def kanbanTypeOrder (stateType : String) : Int :=
  if stateType = "backlog" then 0
  else if stateType = "unstarted" then 1
  else if stateType = "started" then 2
  else if stateType = "completed" then 3
  else if stateType = "canceled" then 4
  else 0

/-- The `less` closure of `sortStatesByType` (kanban.go:339-346). -/
def lessState (a b : WorkflowState) : Bool :=
  if kanbanTypeOrder a.type ≠ kanbanTypeOrder b.type then
    decide (kanbanTypeOrder a.type < kanbanTypeOrder b.type)
  else decide (a.position < b.position)

def leState (a b : WorkflowState) : Bool := ! lessState b a

/-- `sortStatesByType` (kanban.go:327-349).  The source uses `sort.Slice`
(not guaranteed stable); on inputs whose (type-order, position) keys are
pairwise distinct every correct sort yields the same list, which the
stable insertion sort model computes. -/
def sortStatesByType (states : List WorkflowState) : List WorkflowState :=
  states.insertionSort (fun a b => leState a b = true)

/-- `kanban.Column` (kanban.go:14-18). -/
structure Column where
  state : WorkflowState
  issues : List Issue
  cursor : Int
  deriving Repr, DecidableEq

/-- `filterIssuesByState` (kanban.go:351-359). -/
def filterIssuesByState (issuesList : List Issue) (stateID : String) : List Issue :=
  issuesList.filter (fun i =>
    match i.state with
    | some st => st.id = stateID
    | none => false)

/-- The column construction of `kanban.New` (kanban.go:29-51); the
remaining `Model` fields are geometry. -/
def kanbanColumns (issuesList : List Issue) (states : List WorkflowState) : List Column :=
  (sortStatesByType states).map (fun st =>
    { state := st, issues := filterIssuesByState issuesList st.id, cursor := 0 })

/-! ## Edit form (internal/ui/views/issues/edit.go) -/

/-- `issues.EditModel` (edit.go:14-44): the two text inputs are reduced to
their values, the option catalogs and selection indices are kept. -/
structure EditModelS where
  issue : Option Issue
  titleValue : String
  descValue : String
  teams : List Team
  projects : List Project
  states : List WorkflowState
  users : List User
  labels : List Label
  selectedTeam : Int
  selectedProject : Int
  selectedState : Int
  selectedPriority : Int
  selectedAssignee : Int
  focusIndex : Int
  deriving Repr, DecidableEq

/-- The find-index loops of `NewEditModel` (edit.go:76-114): scan for the
first matching element; leave the default when nothing matches. -/
def indexOfOr (dflt : Int) (p : α → Bool) (l : List α) : Int :=
  let k := l.findIdx p
  if k < l.length then (k : Int) else dflt

/-- `issues.NewEditModel` (edit.go:58-134). -/
def newEditModel (issue : Issue) (teams : List Team) (projects : List Project)
    (states : List WorkflowState) (users : List User) (labels : List Label) : EditModelS :=
  { issue := some issue
    titleValue := issue.title
    descValue := issue.description
    teams := teams, projects := projects, states := states, users := users, labels := labels
    selectedTeam :=
      match issue.team with
      | some t => indexOfOr 0 (fun x => x.id = t.id) teams
      | none => 0
    selectedProject :=
      match issue.project with
      | some p => indexOfOr (-1) (fun x => x.id = p.id) projects
      | none => -1
    selectedState :=
      match issue.state with
      | some st => indexOfOr 0 (fun x => x.id = st.id) states
      | none => 0
    selectedPriority := issue.priority
    selectedAssignee :=
      match issue.assignee with
      | some a => indexOfOr (-1) (fun x => x.id = a.id) users
      | none => -1
    focusIndex := 0 }

/-- The `project` case of `EditModel.handlePickerSelection`
(edit.go:246-256): the "None" item (empty ID) sets the index to -1. -/
def editSelectProject (m : EditModelS) (itemID : String) : EditModelS :=
  if itemID = "" then { m with selectedProject := -1 }
  else
    match m.projects.findIdx? (fun p => p.id = itemID) with
    | some k => { m with selectedProject := (k : Int) }
    | none => m

/-- The `assignee` case of `EditModel.handlePickerSelection`
(edit.go:272-282): the "Unassigned" item (empty ID) sets the index to -1. -/
def editSelectAssignee (m : EditModelS) (itemID : String) : EditModelS :=
  if itemID = "" then { m with selectedAssignee := -1 }
  else
    match m.users.findIdx? (fun u => u.id = itemID) with
    | some k => { m with selectedAssignee := (k : Int) }
    | none => m

/-- `EditModel.GetUpdateInput` (edit.go:386-421).  The
`input.ProjectID = nil` / `input.AssigneeID = nil` assignments on the
`selected... == -1` branches write the zero value the field already has. -/
def getUpdateInput (m : EditModelS) : IssueUpdateInput :=
  let input : IssueUpdateInput :=
    { title := some m.titleValue, description := some m.descValue,
      priority := some m.selectedPriority }
  let input :=
    if h : 0 ≤ m.selectedState ∧ m.selectedState.toNat < m.states.length then
      { input with stateID := some (m.states.get ⟨m.selectedState.toNat, h.2⟩).id }
    else input
  let input :=
    if m.selectedProject = -1 then
      { input with projectID := none }
    else if h : 0 ≤ m.selectedProject ∧ m.selectedProject.toNat < m.projects.length then
      { input with projectID := some (m.projects.get ⟨m.selectedProject.toNat, h.2⟩).id }
    else input
  let input :=
    if m.selectedAssignee = -1 then
      { input with assigneeID := none }
    else if h : 0 ≤ m.selectedAssignee ∧ m.selectedAssignee.toNat < m.users.length then
      { input with assigneeID := some (m.users.get ⟨m.selectedAssignee.toNat, h.2⟩).id }
    else input
  input

/-! ## JSON serialization of `IssueUpdateInput` (types.go:130-142)

`encoding/json` on a struct whose pointer fields carry `omitempty`: a nil
pointer produces **no field at all** in the object; a non-nil pointer
produces the field with the pointed-to value (even a pointer to a zero
value).  A nil/empty `[]string` with `omitempty` is likewise omitted.
The object is modelled as its ordered field list; values as their JSON
text. -/

def jsonStr (s : String) : String := "\"" ++ s ++ "\""

def optStrField (name : String) : Option String → List (String × String)
  | some v => [(name, jsonStr v)]
  | none => []

def optIntField (name : String) : Option Int → List (String × String)
  | some v => [(name, toString v)]
  | none => []

/-- The JSON object `json.Marshal` produces for an `IssueUpdateInput`,
as its ordered field list. -/
def issueUpdateInputFields (i : IssueUpdateInput) : List (String × String) :=
  optStrField "title" i.title ++
  optStrField "description" i.description ++
  optStrField "assigneeId" i.assigneeID ++
  optStrField "stateId" i.stateID ++
  optIntField "priority" i.priority ++
  optIntField "estimate" i.estimate ++
  optStrField "projectId" i.projectID ++
  optStrField "cycleId" i.cycleID ++
  (if i.labelIDs.isEmpty then []
   else [("labelIds", "[" ++ joinWith "," (i.labelIDs.map jsonStr) ++ "]")]) ++
  optStrField "parentId" i.parentID ++
  optStrField "dueDate" i.dueDate

/-! ## Concrete values used by witnesses and counterexamples -/

/-- An issue with every optional relation absent and all unused scalars
zeroed; the building block of the concrete test states. -/
def mkIssue (id identifier title description : String) (priority updatedAt : Int)
    (state : Option WorkflowState) : Issue :=
  { id := id, identifier := identifier, title := title, description := description,
    priority := priority, createdAt := 0, updatedAt := updatedAt, dueDate := none,
    branchName := "", url := "", state := state, assignee := none, team := none,
    project := none, labels := [] }

def stStarted : WorkflowState :=
  { id := "st-1", name := "In Progress", color := "", type := "started", position := 0 }

def stBacklog : WorkflowState :=
  { id := "st-2", name := "Backlog", color := "", type := "backlog", position := 0 }

def issueA : Issue := mkIssue "id-a" "ABC-1" "Alpha" "" 1 100 (some stStarted)

def issueB : Issue := mkIssue "id-b" "ABC-2" "Beta" "" 2 90 (some stStarted)

/-- The server's updated record for `issueB`: same identifier, new
priority, newer update instant. -/
def issueB2 : Issue := { issueB with priority := 1, updatedAt := 200 }

def issueC : Issue := mkIssue "id-c" "ABC-3" "Gamma" "" 3 80 (some stBacklog)

/-- A second record carrying `issueA`'s identifier (used to build a page
that internally duplicates an identifier). -/
def issueADup : Issue := mkIssue "id-a" "ABC-1" "Alpha again" "" 4 50 (some stBacklog)

/-- A neutral application state to instantiate the dispatch theorems. -/
def baseState : AppState :=
  { view := .list, activeTab := .myIssues, loading := false, statusMsg := "",
    statusErr := false, showHelp := false, searchMode := false, searchValue := "",
    searchQuery := "", filteredIssues := [], allProjectIssues := [],
    pageInfo := { hasNextPage := false, endCursor := "" }, loadingMore := false,
    listView := newListModel [] 80 20, detailView := newDetailModel none 80 20,
    issues := [], currentIssue := none, currentProject := none, filterProject := none,
    picker := none, pickerType := "", viewer := none, teams := [], projects := [],
    users := [], states := [], labels := [], width := 80, height := 24 }

def stateC2 : AppState := { baseState with issues := [issueA, issueB] }

def stateC5 : AppState := { baseState with loading := true }

def pickerItemDana : PickerItem := { id := "user-dana", label := "Dana", icon := "", desc := "" }

def pickerItemUnassigned : PickerItem := { id := "", label := "Unassigned", icon := "", desc := "" }

/-- The assignee picker as opened from Detail view, with the cursor moved
to the candidate "Dana". -/
def pickerC6 : PickerS :=
  { newPickerModel "Change Assignee" [pickerItemUnassigned, pickerItemDana] with cursor := 1 }

/-- Detail view on issue ABC-1 with the assignee picker open. -/
def stateC6 : AppState :=
  { baseState with view := .detail, currentIssue := some issueA,
                   issues := [issueA, issueB], picker := some pickerC6,
                   pickerType := "assignee" }

def projRoadmap : Project := { id := "proj-1", name := "Roadmap", icon := "" }

def userAna : User := { id := "user-1", name := "Ana", displayName := "", email := "" }

/-- An issue whose project and assignee are both set, as loaded into the
edit form. -/
def issueC7 : Issue :=
  { mkIssue "id-7" "ABC-7" "Seventh" "" 2 10 (some stStarted) with
      project := some projRoadmap, assignee := some userAna }

def editC7 : EditModelS := newEditModel issueC7 [] [projRoadmap] [stStarted] [userAna] []

/-- The edit form after the user changes project to "None" and assignee
to "Unassigned" through the pickers. -/
def editC7after : EditModelS := editSelectAssignee (editSelectProject editC7 "") ""

/-- An issue with state absent, assignee absent, and empty description. -/
def issueNull : Issue := mkIssue "id-9" "ABC-12" "Fix parser" "" 0 0 none

/-- The detail view over `issueNull` at width 30. -/
def detailNull : DetailModelS := newDetailModel (some issueNull) 30 20

/-- The reachability invariant of `ListModel` navigation: a non-negative
scroll offset, a positive page size, and a cursor that stays inside the
list (or at 0 / -1 when the list is empty, the -1 arising from the
`end`/`G` and page-down arms). -/
def listInv (m : ListModelS) : Prop :=
  0 ≤ m.offset ∧ 1 ≤ m.pageSize ∧
  ((m.issues.length : Int) = 0 → m.cursor = 0 ∨ m.cursor = -1) ∧
  (0 < (m.issues.length : Int) → 0 ≤ m.cursor ∧ m.cursor < (m.issues.length : Int))

/-- A sequence of key events dispatched to a `ListModel`. -/
def listRun (init : ListModelS) (keys : List ListKey) : ListModelS :=
  keys.foldl listUpdate init

/-! ## Theorems -/

theorem lessIssue_iff (a b : Issue) :
    lessIssue a b = true ↔
      (sortKey a).1 < (sortKey b).1 ∨
      ((sortKey a).1 = (sortKey b).1 ∧
        ((sortKey a).2.1 < (sortKey b).2.1 ∨
          ((sortKey a).2.1 = (sortKey b).2.1 ∧ (sortKey b).2.2 < (sortKey a).2.2))) := by
  simp only [lessIssue, sortKey]
  split
  · rename_i h
    simp only [decide_eq_true_eq]
    constructor
    · intro hlt; exact Or.inl hlt
    · rintro (hlt | ⟨heq, _⟩)
      · exact hlt
      · exact absurd heq h
  · rename_i h
    rw [not_not] at h
    split
    · rename_i h2
      simp only [decide_eq_true_eq]
      constructor
      · intro hlt; exact Or.inr ⟨h, Or.inl hlt⟩
      · rintro (hlt | ⟨_, hlt | ⟨heq, _⟩⟩)
        · omega
        · exact hlt
        · exact absurd heq h2
    · rename_i h2
      rw [not_not] at h2
      simp only [decide_eq_true_eq]
      constructor
      · intro hlt; exact Or.inr ⟨h, Or.inr ⟨h2, hlt⟩⟩
      · rintro (hlt | ⟨_, hlt | ⟨_, hlt⟩⟩)
        · omega
        · omega
        · exact hlt

theorem leIssue_iff (a b : Issue) :
    leIssue a b = true ↔
      (sortKey a).1 < (sortKey b).1 ∨
      ((sortKey a).1 = (sortKey b).1 ∧
        ((sortKey a).2.1 < (sortKey b).2.1 ∨
          ((sortKey a).2.1 = (sortKey b).2.1 ∧ (sortKey b).2.2 ≤ (sortKey a).2.2))) := by
  simp only [leIssue, Bool.not_eq_true']
  rw [← Bool.not_eq_true, lessIssue_iff]
  constructor
  · intro h
    by_cases h1 : (sortKey a).1 < (sortKey b).1
    · exact Or.inl h1
    · by_cases h2 : (sortKey a).1 = (sortKey b).1
      · refine Or.inr ⟨h2, ?_⟩
        by_cases h3 : (sortKey a).2.1 < (sortKey b).2.1
        · exact Or.inl h3
        · by_cases h4 : (sortKey a).2.1 = (sortKey b).2.1
          · refine Or.inr ⟨h4, ?_⟩
            by_contra h5
            exact h (Or.inr ⟨h2.symm, Or.inr ⟨h4.symm, by omega⟩⟩)
          · exfalso; exact h (Or.inr ⟨h2.symm, Or.inl (by omega)⟩)
      · exfalso; exact h (Or.inl (by omega))
  · rintro (h1 | ⟨h1, h2 | ⟨h2, h3⟩⟩) <;>
      rintro (g1 | ⟨g1, g2 | ⟨g2, g3⟩⟩) <;> omega

theorem leIssue_trans (a b c : Issue) :
    leIssue a b = true → leIssue b c = true → leIssue a c = true := by
  rw [leIssue_iff, leIssue_iff, leIssue_iff]
  rintro (h1 | ⟨h1, h2 | ⟨h2, h3⟩⟩) <;>
    rintro (g1 | ⟨g1, g2 | ⟨g2, g3⟩⟩) <;>
    first
      | (left; omega)
      | (right; constructor; · omega
         first
           | (left; omega)
           | (right; constructor <;> omega))

theorem leIssue_total (a b : Issue) : (leIssue a b || leIssue b a) = true := by
  rw [Bool.or_eq_true, leIssue_iff, leIssue_iff]
  by_cases h1 : (sortKey a).1 < (sortKey b).1
  · exact Or.inl (Or.inl h1)
  · by_cases h2 : (sortKey b).1 < (sortKey a).1
    · exact Or.inr (Or.inl h2)
    · have h3 : (sortKey a).1 = (sortKey b).1 := by omega
      by_cases h4 : (sortKey a).2.1 < (sortKey b).2.1
      · exact Or.inl (Or.inr ⟨h3, Or.inl h4⟩)
      · by_cases h5 : (sortKey b).2.1 < (sortKey a).2.1
        · exact Or.inr (Or.inr ⟨h3.symm, Or.inl h5⟩)
        · have h6 : (sortKey a).2.1 = (sortKey b).2.1 := by omega
          by_cases h7 : (sortKey b).2.2 ≤ (sortKey a).2.2
          · exact Or.inl (Or.inr ⟨h3, Or.inr ⟨h6, h7⟩⟩)
          · exact Or.inr (Or.inr ⟨h3.symm, Or.inr ⟨h6.symm, by omega⟩⟩)

theorem sortIssues_perm (l : List Issue) : (sortIssues l).Perm l :=
  List.perm_insertionSort _ l

theorem sortIssues_sorted (l : List Issue) :
    (sortIssues l).Pairwise (fun a b => leIssue a b = true) :=
  @List.sorted_insertionSort Issue (fun a b => leIssue a b = true) _
    ⟨fun a b => Bool.or_eq_true .. |>.mp (leIssue_total a b)⟩
    ⟨fun a b c => leIssue_trans a b c⟩ l

theorem sortIssues_stable (l : List Issue) (k : Int × Int × Int) :
    (sortIssues l).filter (fun i => sortKey i = k) =
      l.filter (fun i => sortKey i = k) := by
  have hsub : (l.filter (fun i => sortKey i = k)).Sublist (sortIssues l) := by
    apply List.sublist_insertionSort
    · apply List.pairwise_of_forall_mem_list
      intro a ha b hb
      rw [List.mem_filter] at ha hb
      have h1 : sortKey a = k := by simpa using ha.2
      have h2 : sortKey b = k := by simpa using hb.2
      rw [leIssue_iff, h1, h2]
      omega
    · exact List.filter_sublist l
  have hperm : ((sortIssues l).filter (fun i => sortKey i = k)).Perm
      (l.filter (fun i => sortKey i = k)) :=
    (sortIssues_perm l).filter _
  have hsub2 : (l.filter (fun i => sortKey i = k)).Sublist
      ((sortIssues l).filter (fun i => sortKey i = k)) := by
    have := List.Sublist.filter (fun i => decide (sortKey i = k)) hsub
    simpa [List.filter_filter] using this
  exact (hsub2.eq_of_length (hperm.length_eq.symm)).symm

theorem sortIssues_idem (l : List Issue) : sortIssues (sortIssues l) = sortIssues l :=
  List.Sorted.insertionSort_eq (sortIssues_sorted l)

/-- C1. `sortIssues` returns a permutation of its input that is ordered by
state-type precedence (started(0) < unstarted(1) < backlog(2) <
triage(3)/unknown(3) < completed(4) < canceled(5), an absent state counting
as unstarted), then by priority ascending with priority 0 remapped to rank
5, then by updated-timestamp descending; it is stable (issues with fully
equal sort keys keep their relative input order), and idempotent. -/
theorem sortIssues_correct (l : List Issue) :
    (sortIssues l).Perm l ∧
    (sortIssues l).Pairwise (fun a b =>
      stateTypePriority (issueStateType a) < stateTypePriority (issueStateType b) ∨
      (stateTypePriority (issueStateType a) = stateTypePriority (issueStateType b) ∧
        (effectivePriority a.priority < effectivePriority b.priority ∨
          (effectivePriority a.priority = effectivePriority b.priority ∧
            b.updatedAt ≤ a.updatedAt)))) ∧
    (∀ k, (sortIssues l).filter (fun i => sortKey i = k) =
      l.filter (fun i => sortKey i = k)) ∧
    sortIssues (sortIssues l) = sortIssues l ∧
    (stateTypePriority "started" = 0 ∧ stateTypePriority "unstarted" = 1 ∧
      stateTypePriority "backlog" = 2 ∧ stateTypePriority "triage" = 3 ∧
      stateTypePriority "completed" = 4 ∧ stateTypePriority "canceled" = 5) ∧
    (∀ t, t ≠ "started" → t ≠ "unstarted" → t ≠ "backlog" → t ≠ "triage" →
      t ≠ "completed" → t ≠ "canceled" → stateTypePriority t = 3) ∧
    (∀ i : Issue, i.state = none → issueStateType i = "unstarted") ∧
    effectivePriority 0 = 5 ∧ (∀ p : Int, p ≠ 0 → effectivePriority p = p) := by
  refine ⟨sortIssues_perm l, ?_, sortIssues_stable l, sortIssues_idem l, ?_, ?_, ?_, ?_, ?_⟩
  · have h := sortIssues_sorted l
    apply h.imp
    intro a b hab
    have := (leIssue_iff a b).mp hab
    simpa [sortKey] using this
  · refine ⟨rfl, rfl, rfl, rfl, rfl, rfl⟩
  · intro t h1 h2 h3 h4 h5 h6
    simp [stateTypePriority, h1, h2, h3, h4, h5, h6]
  · intro i hi
    simp [issueStateType, hi]
  · rfl
  · intro p hp
    simp [effectivePriority, hp]

theorem appendUniqueGo_eq (l : List Issue) :
    ∀ seen acc, appendUniqueGo seen acc l = acc ++ dedupNotSeen seen l := by
  induction l with
  | nil => intro seen acc; simp [appendUniqueGo, dedupNotSeen]
  | cons i rest ih =>
    intro seen acc
    by_cases h : i.id ∈ seen
    · simp [appendUniqueGo, dedupNotSeen, h, ih]
    · simp [appendUniqueGo, dedupNotSeen, h, ih]

theorem dedupNotSeen_of_nodup (l : List Issue) :
    ∀ seen, (l.map Issue.id).Nodup →
      dedupNotSeen seen l = l.filter (fun i => i.id ∉ seen) := by
  induction l with
  | nil => intro seen _; simp [dedupNotSeen]
  | cons i rest ih =>
    intro seen hnd
    simp only [List.map_cons, List.nodup_cons] at hnd
    by_cases h : i.id ∈ seen
    · simp [dedupNotSeen, h, ih seen hnd.2]
    · simp only [dedupNotSeen, if_neg h]
      rw [ih _ hnd.2, List.filter_cons, if_pos (by simpa using h)]
      congr 1
      apply List.filter_congr
      intro x hx
      have hne : x.id ≠ i.id := by
        intro heq
        exact hnd.1 (heq ▸ List.mem_map_of_mem Issue.id hx)
      simp [List.mem_cons, hne]

/-- The closed form used by C3: with a duplicate-free page, the append is
exactly `existing` followed by the page entries whose identifier is new. -/
theorem appendUniqueIssues_eq (existing newIssues : List Issue)
    (hpage : (newIssues.map Issue.id).Nodup) :
    appendUniqueIssues existing newIssues =
      existing ++ newIssues.filter (fun i => i.id ∉ existing.map Issue.id) := by
  rw [appendUniqueIssues, appendUniqueGo_eq, dedupNotSeen_of_nodup _ _ hpage]

theorem replaceIssue_of_not_mem (l : List Issue) (u : Issue)
    (h : u.id ∉ l.map Issue.id) : replaceIssue l u = l := by
  induction l with
  | nil => rfl
  | cons i rest ih =>
    simp only [List.map_cons, List.mem_cons] at h
    push_neg at h
    have hne : i.id ≠ u.id := fun heq => h.1 heq.symm
    simp [replaceIssue, hne, ih h.2]

theorem replaceIssue_length (l : List Issue) (u : Issue) :
    (replaceIssue l u).length = l.length := by
  induction l with
  | nil => rfl
  | cons i rest ih =>
    by_cases h : i.id = u.id <;> simp [replaceIssue, h, ih]

/-- With duplicate-free identifiers, replacing is exactly `List.set` at the
index holding the matching identifier. -/
theorem replaceIssue_eq_set (l : List Issue) (u : Issue)
    (hnd : (l.map Issue.id).Nodup) :
    ∀ j (hj : j < l.length), (l.get ⟨j, hj⟩).id = u.id →
      replaceIssue l u = l.set j u := by
  induction l with
  | nil => intro j hj; simp at hj
  | cons i rest ih =>
    intro j hj hid
    simp only [List.map_cons, List.nodup_cons] at hnd
    match j with
    | 0 =>
      simp only [List.get] at hid
      simp [replaceIssue, hid, List.set]
    | j' + 1 =>
      simp only [List.get] at hid
      have hne : i.id ≠ u.id := by
        intro heq
        apply hnd.1
        rw [heq, ← hid]
        exact List.mem_map_of_mem Issue.id (List.get_mem rest j' _)
      simp only [replaceIssue, if_neg hne, List.set]
      rw [ih hnd.2 j' (by simpa using hj) hid]

theorem isPrefixOf_self (l : List Char) : l.isPrefixOf l = true := by
  induction l with
  | nil => rfl
  | cons c t ih => simp [List.isPrefixOf, ih]

theorem hasSub_self (l : List Char) : hasSub l l = true := by
  cases l with
  | nil => rfl
  | cons c t => simp [hasSub, isPrefixOf_self]

theorem strContains_self (s : String) : strContains s s = true :=
  hasSub_self s.data

/-- `hasSub` means exactly substring occurrence. -/
theorem hasSub_iff_infix (sub l : List Char) :
    hasSub sub l = true ↔ sub <:+: l := by
  induction l with
  | nil =>
    simp [hasSub, List.isEmpty_iff]
  | cons c rest ih =>
    simp only [hasSub, Bool.or_eq_true, ih, List.isPrefixOf_iff_prefix]
    constructor
    · rintro (h | h)
      · exact h.isInfix
      · exact List.infix_cons h
    · intro h
      rcases h with ⟨pre, post, hsplit⟩
      cases pre with
      | nil => exact Or.inl ⟨post, by simpa using hsplit⟩
      | cons p ps =>
        exact Or.inr ⟨ps, post, by simpa using congrArg List.tail hsplit⟩

/-- C5 (counterexample).  The claim says every error-carrying completion
event "clears the loading flags": dispatching a failed `IssueUpdatedMsg`
to a state whose `loading` flag is set leaves `loading` set — mutation
errors do not touch the loading flags. -/
theorem issueUpdated_error_keeps_loading :
    stateC5.loading = true ∧
    (handleMsg stateC5 (.issueUpdated none (some "boom"))).1.loading = true := by
  exact ⟨rfl, rfl⟩

/-- C5 (amended).  Every error-carrying completion event (initial data
load, issue-list load, issue create, issue update, issue delete) sets
`statusMsg` to the error text and `statusErr`, returns no command, and
changes nothing else — except that the two *load* completions clear the
loading flags they own (`loading` for the initial load; `loading` and
`loadingMore` for the list load); mutation errors leave even those
untouched, so the pre-call list, record, and view stay on screen. -/
theorem handleMsg_error_paths (s : AppState) (e : String)
    (v : Option Viewer) (teams : List Team) (projects : List Project)
    (mp : Option Project) (issuesList : List Issue) (pi : PageInfo) (append : Bool)
    (iu ic : Option Issue) (iid ident : String) :
    handleMsg s (.dataLoaded v teams projects mp (some e)) =
      ({ s with loading := false, statusMsg := "Error: " ++ e, statusErr := true },
        Cmd.none) ∧
    handleMsg s (.issuesLoaded issuesList pi append (some e)) =
      ({ s with loading := false, loadingMore := false,
                statusMsg := "Error loading issues: " ++ e, statusErr := true },
        Cmd.none) ∧
    handleMsg s (.issueUpdated iu (some e)) =
      ({ s with statusMsg := "Error: " ++ e, statusErr := true }, Cmd.none) ∧
    handleMsg s (.issueCreated ic (some e)) =
      ({ s with statusMsg := "Error creating issue: " ++ e, statusErr := true },
        Cmd.none) ∧
    handleMsg s (.issueDeleted iid ident (some e)) =
      ({ s with statusMsg := "Error deleting issue: " ++ e, statusErr := true },
        Cmd.none) := by
  refine ⟨rfl, rfl, rfl, rfl, rfl⟩

/-- C6.  In Detail view on issue ABC-1 with the assignee picker open and
the cursor on candidate "Dana", pressing enter issues exactly the
issue-update mutation committing Dana's identifier — but the returned
state still has the picker open: the `defer` in `handlePickerSelection`
resets `m.picker` only on a dead local copy after the unnamed results
were captured.  Escape, by contrast, closes the picker and issues no
mutation. -/
theorem pickerSelection_keeps_picker_open :
    (updatePicker stateC6 .enter).2 =
      Cmd.updateIssueCmd "id-a" { assigneeID := some "user-dana" } ∧
    (updatePicker stateC6 .enter).1 = stateC6 ∧
    (updatePicker stateC6 .enter).1.picker ≠ none ∧
    updatePicker stateC6 .esc =
      ({ stateC6 with picker := none, pickerType := "" }, Cmd.none) := by
  refine ⟨rfl, rfl, ?_, rfl⟩
  intro h
  simp [updatePicker, stateC6, handlePickerSelection, pickerSelectedItem, pickerC6,
        newPickerModel] at h

/-- C7.  Editing issue ABC-7 (project "Roadmap", assignee "Ana") and
changing project to "None" and assignee to "Unassigned" yields a
`GetUpdateInput` payload whose `ProjectID`/`AssigneeID` are the nil
pointer.  Under the `omitempty` JSON tags of `IssueUpdateInput`
(types.go:133,137) the serialized object then *omits* `projectId` and
`assigneeId` altogether — byte-identical to a payload in which the fields
were never touched — instead of carrying an explicit null; the same form
before the change does emit both fields.  So "explicitly nulls out,
distinguishable from omitting" fails, contradicting the code's own
comments ("Explicitly unset the project on the issue", edit.go:404;
"Explicitly set to nil to unassign in Linear", edit.go:413). -/
theorem getUpdateInput_unset_not_null :
    (getUpdateInput editC7after).projectID = none ∧
    (getUpdateInput editC7after).assigneeID = none ∧
    (issueUpdateInputFields (getUpdateInput editC7after)).lookup "projectId" = none ∧
    (issueUpdateInputFields (getUpdateInput editC7after)).lookup "assigneeId" = none ∧
    issueUpdateInputFields (getUpdateInput editC7after) =
      issueUpdateInputFields
        { title := some "Seventh", description := some "", priority := some 2,
          stateID := some "st-1" } ∧
    (issueUpdateInputFields (getUpdateInput editC7)).lookup "projectId" =
      some (jsonStr "proj-1") ∧
    (issueUpdateInputFields (getUpdateInput editC7)).lookup "assigneeId" =
      some (jsonStr "user-1") := by
  refine ⟨rfl, rfl, rfl, rfl, rfl, rfl, rfl⟩

theorem handleMsg_issueUpdated_ok_issues (s : AppState) (u : Issue) :
    (handleMsg s (.issueUpdated (some u) none)).1.issues =
      sortIssues (replaceIssue s.issues u) := by
  show (let s1 := { s with statusMsg := "Issue updated", statusErr := false }
        let s2 :=
          let sorted := sortIssues (replaceIssue s1.issues u)
          let s2a := { s1 with issues := sorted,
                               listView := newListModel sorted s1.width (s1.height - 4) }
          match s2a.currentIssue with
          | some cur =>
            if cur.id = u.id then
              { s2a with currentIssue := some u,
                         detailView := newDetailModel (some u) s2a.width (s2a.height - 4) }
            else s2a
          | none => s2a
        let s3 := if s2.view = View.edit then { s2 with view := .detail } else s2
        (s3, Cmd.none)).1.issues = sortIssues (replaceIssue s.issues u)
  dsimp only
  cases s.currentIssue with
  | none => dsimp only; split <;> rfl
  | some cur =>
    dsimp only
    by_cases hc : cur.id = u.id <;> simp only [hc, if_true, if_false, reduceIte] <;>
      split <;> rfl

/-- C2.  Dispatching a successful `IssueUpdatedMsg` for issue `u`
replaces, by identifier match, exactly the element holding `u`'s
identifier in place (it is `List.set` at that position) and then re-sorts
the list; when the identifier is not present the list contents are
untouched (the dispatch re-sorts the unchanged — already sorted — list,
inserts nothing, and cannot fail). -/
theorem issueUpdated_patch_in_place (s : AppState) (u : Issue)
    (hnd : (s.issues.map Issue.id).Nodup) :
    ((handleMsg s (.issueUpdated (some u) none)).1.issues =
        sortIssues (replaceIssue s.issues u)) ∧
    (∀ j (hj : j < s.issues.length), (s.issues.get ⟨j, hj⟩).id = u.id →
        replaceIssue s.issues u = s.issues.set j u) ∧
    (replaceIssue s.issues u).length = s.issues.length ∧
    (u.id ∉ s.issues.map Issue.id →
        replaceIssue s.issues u = s.issues ∧
        (handleMsg s (.issueUpdated (some u) none)).1.issues = sortIssues s.issues ∧
        u ∉ (handleMsg s (.issueUpdated (some u) none)).1.issues ∧
        (sortIssues s.issues = s.issues →
          (handleMsg s (.issueUpdated (some u) none)).1.issues = s.issues)) := by
  refine ⟨handleMsg_issueUpdated_ok_issues s u,
          replaceIssue_eq_set s.issues u hnd,
          replaceIssue_length s.issues u, ?_⟩
  intro habs
  have hrep : replaceIssue s.issues u = s.issues := replaceIssue_of_not_mem s.issues u habs
  have hiss : (handleMsg s (.issueUpdated (some u) none)).1.issues = sortIssues s.issues := by
    rw [handleMsg_issueUpdated_ok_issues s u, hrep]
  refine ⟨hrep, hiss, ?_, fun hsorted => by rw [hiss, hsorted]⟩
  intro hmem
  rw [hiss] at hmem
  have : u ∈ s.issues := ((sortIssues_perm s.issues).mem_iff).mp hmem
  exact habs (List.mem_map_of_mem Issue.id this)

/-- Witness for C2: in the displayed list `[issueA, issueB]`, a
successful mutation response carrying `issueB2` (same identifier as
`issueB`, changed priority) patches position 1 in place and re-sorts. -/
theorem issueUpdated_patch_in_place_witness :
    ((handleMsg stateC2 (.issueUpdated (some issueB2) none)).1.issues =
        sortIssues (replaceIssue stateC2.issues issueB2)) ∧
    replaceIssue stateC2.issues issueB2 = stateC2.issues.set 1 issueB2 := by
  have h := issueUpdated_patch_in_place stateC2 issueB2 (by decide)
  exact ⟨h.1, h.2.1 1 (by decide) (by decide)⟩

theorem filter_split_length (p : α → Bool) (l : List α) :
    (l.filter p).length + (l.filter (fun a => !p a)).length = l.length := by
  induction l with
  | nil => rfl
  | cons a t ih =>
    by_cases h : p a = true <;> simp [List.filter_cons, h] <;> omega

theorem handleMsg_issuesLoaded_ok_issues (s : AppState) (page : List Issue)
    (pi : PageInfo) (append : Bool) :
    (handleMsg s (.issuesLoaded page pi append none)).1.issues =
      sortIssues (if append then appendUniqueIssues s.issues page else page) := by
  unfold handleMsg
  dsimp only
  split <;> first | rfl | (split <;> rfl)

/-- C3 (counterexample).  The claim quantifies over *every* fetched page;
a page that internally repeats an identifier (here, two records with
identifier ABC-1 appended to an empty, duplicate-free list: N = 2, K = 0)
grows the list by 1, not by N − K = 2. -/
theorem appendUniqueIssues_dup_page_cex :
    (([] : List Issue).map Issue.id).Nodup ∧
    ([issueA, issueADup].filter
        (fun i => i.id ∈ ([] : List Issue).map Issue.id)).length = 0 ∧
    [issueA, issueADup].length = 2 ∧
    (appendUniqueIssues [] [issueA, issueADup]).length = 1 ∧
    (appendUniqueIssues [] [issueA, issueADup]).length ≠
      ([] : List Issue).length + ([issueA, issueADup].length - 0) := by
  refine ⟨by decide, by decide, by decide, by decide, by decide⟩

/-- C3 (amended).  For a current list with no duplicate identifiers and a
fetched page that itself contains no duplicate identifiers, the append
keeps the existing rows in place followed by exactly the page rows with
fresh identifiers: the size grows by N − K (K the page rows whose
identifier is already present), the result has no duplicate identifiers,
no already-present row is reintroduced, nothing outside
`existing ++ page` appears, and the dispatch then re-sorts. -/
theorem appendUniqueIssues_dedup (existing page : List Issue)
    (hex : (existing.map Issue.id).Nodup) (hpage : (page.map Issue.id).Nodup) :
    appendUniqueIssues existing page =
      existing ++ page.filter (fun i => i.id ∉ existing.map Issue.id) ∧
    (appendUniqueIssues existing page).length =
      existing.length +
        (page.length -
          (page.filter (fun i => i.id ∈ existing.map Issue.id)).length) ∧
    ((appendUniqueIssues existing page).map Issue.id).Nodup ∧
    (∀ i ∈ existing, i ∈ appendUniqueIssues existing page) ∧
    (∀ i ∈ appendUniqueIssues existing page, i ∈ existing ∨ i ∈ page) ∧
    (∀ (s : AppState) (pi : PageInfo), s.issues = existing →
      (handleMsg s (.issuesLoaded page pi true none)).1.issues =
        sortIssues (appendUniqueIssues existing page)) := by
  have heq := appendUniqueIssues_eq existing page hpage
  have hnot : page.filter (fun i => i.id ∉ existing.map Issue.id) =
      page.filter (fun i => !(decide (i.id ∈ existing.map Issue.id))) := by
    simp only [decide_not]
  have hsplit := filter_split_length
    (fun i => decide (i.id ∈ existing.map Issue.id)) page
  refine ⟨heq, ?_, ?_, ?_, ?_, ?_⟩
  · rw [heq, List.length_append, hnot]
    omega
  · rw [heq, List.map_append, List.nodup_append]
    refine ⟨hex, ?_, ?_⟩
    · exact ((List.filter_sublist page).map Issue.id).nodup hpage
    · intro a ha hb
      rw [List.mem_map] at hb
      obtain ⟨i, hi, hid⟩ := hb
      rw [List.mem_filter] at hi
      have hnotin : i.id ∉ existing.map Issue.id := by simpa using hi.2
      rw [← hid] at ha
      exact hnotin ha
  · intro i hi
    rw [heq]
    exact List.mem_append_left _ hi
  · intro i hi
    rw [heq, List.mem_append] at hi
    rcases hi with h | h
    · exact Or.inl h
    · exact Or.inr (List.mem_of_mem_filter h)
  · intro s pi hs
    rw [handleMsg_issuesLoaded_ok_issues, if_pos rfl, hs]

/-- Witness for C3: appending the page `[issueADup, issueC]`
(identifiers ABC-1, ABC-3; ABC-1 already present) to `[issueA]` keeps the
existing row and adds only the fresh one (N = 2, K = 1, growth 1). -/
theorem appendUniqueIssues_dedup_witness :
    appendUniqueIssues [issueA] [issueADup, issueC] =
      [issueA] ++ [issueADup, issueC].filter
        (fun i => i.id ∉ [issueA].map Issue.id) ∧
    (appendUniqueIssues [issueA] [issueADup, issueC]).length =
      [issueA].length +
        ([issueADup, issueC].length -
          ([issueADup, issueC].filter
            (fun i => i.id ∈ [issueA].map Issue.id)).length) := by
  have h := appendUniqueIssues_dedup [issueA] [issueADup, issueC] (by decide) (by decide)
  exact ⟨h.1, h.2.1⟩

/-- C4.  The search filter keeps exactly the issues whose lowered title,
identifier, or description contains the lowered query as a substring (so
a query equal to an issue's identifier keeps that issue); an empty query
restores the full unfiltered list into the list view with the filtered
list cleared, escape does the same while leaving search mode, and neither
path — nor any other search-mode key — issues a fetch command. -/
theorem searchFilter_spec (source : List Issue) (q : String) (s : AppState) :
    (searchFilter source q).Perm
      (source.filter (issueMatchesQuery (strToLower q))) ∧
    (∀ i, i ∈ searchFilter source q ↔
      i ∈ source ∧ issueMatchesQuery (strToLower q) i = true) ∧
    (∀ i ∈ source, i ∈ searchFilter source i.identifier) ∧
    (s.searchQuery ≠ "" →
      filterIssuesState s =
        { s with
            filteredIssues :=
              searchFilter
                (if s.activeTab = .project ∧ s.allProjectIssues.length > 0 then
                  s.allProjectIssues
                 else s.issues) s.searchQuery,
            listView :=
              newListModel
                (searchFilter
                  (if s.activeTab = .project ∧ s.allProjectIssues.length > 0 then
                    s.allProjectIssues
                   else s.issues) s.searchQuery) s.width (s.height - 4) }) ∧
    (s.searchQuery = "" →
      filterIssuesState s =
        { s with filteredIssues := [],
                 listView := newListModel s.issues s.width (s.height - 4) }) ∧
    updateSearchMode s .esc =
      ({ s with searchMode := false, searchQuery := "", searchValue := "",
                filteredIssues := [], allProjectIssues := [],
                listView := newListModel s.issues s.width (s.height - 4) },
        Cmd.none) ∧
    (∀ k, (updateSearchMode s k).2 ≠ Cmd.loadIssues ∧
          (updateSearchMode s k).2 ≠ Cmd.loadAllProjectIssues) := by
  have hperm : (searchFilter source q).Perm
      (source.filter (issueMatchesQuery (strToLower q))) :=
    sortIssues_perm _
  refine ⟨hperm, ?_, ?_, ?_, ?_, rfl, ?_⟩
  · intro i
    rw [hperm.mem_iff, List.mem_filter]
  · intro i hi
    have hmatch : issueMatchesQuery (strToLower i.identifier) i = true := by
      unfold issueMatchesQuery
      rw [Bool.or_eq_true, Bool.or_eq_true]
      exact Or.inl (Or.inr (strContains_self (strToLower i.identifier)))
    have hp : (searchFilter source i.identifier).Perm
        (source.filter (issueMatchesQuery (strToLower i.identifier))) :=
      sortIssues_perm _
    rw [hp.mem_iff, List.mem_filter]
    exact ⟨hi, hmatch⟩
  · intro hq
    rw [filterIssuesState, if_neg hq]
  · intro hq
    simp [filterIssuesState, hq]
  · intro k
    cases k with
    | esc => exact ⟨fun h => Cmd.noConfusion h, fun h => Cmd.noConfusion h⟩
    | enter => exact ⟨fun h => Cmd.noConfusion h, fun h => Cmd.noConfusion h⟩
    | input v => exact ⟨fun h => Cmd.noConfusion h, fun h => Cmd.noConfusion h⟩

/-- Witness for C4: in the list `[issueA, issueB]` the query "ABC-2"
(issueB's identifier) selects issueB; the empty query restores the
unfiltered list; escape exits search with no command. -/
theorem searchFilter_spec_witness :
    issueB ∈ searchFilter [issueA, issueB] "ABC-2" ∧
    filterIssuesState { stateC2 with searchQuery := "" } =
      { stateC2 with searchQuery := "", filteredIssues := [],
                     listView := newListModel stateC2.issues stateC2.width
                       (stateC2.height - 4) } ∧
    (updateSearchMode stateC2 .esc).2 = Cmd.none := by
  have h := searchFilter_spec [issueA, issueB] "ABC-2" { stateC2 with searchQuery := "" }
  refine ⟨?_, h.2.2.2.2.1 rfl, ?_⟩
  · have hb : issueB.identifier = "ABC-2" := rfl
    have := h.2.2.1 issueB (by decide)
    rw [hb] at this
    exact this
  · have h2 := searchFilter_spec [issueA, issueB] "ABC-2" stateC2
    rw [h2.2.2.2.2.2.1]

theorem leState_iff (a b : WorkflowState) :
    leState a b = true ↔
      kanbanTypeOrder a.type < kanbanTypeOrder b.type ∨
      (kanbanTypeOrder a.type = kanbanTypeOrder b.type ∧ a.position ≤ b.position) := by
  simp only [leState, lessState, Bool.not_eq_true']
  rw [← Bool.not_eq_true]
  split
  · rename_i h
    simp only [decide_eq_true_eq]
    omega
  · rename_i h
    rw [not_not] at h
    simp only [decide_eq_true_eq]
    omega

theorem leState_trans (a b c : WorkflowState) :
    leState a b = true → leState b c = true → leState a c = true := by
  rw [leState_iff, leState_iff, leState_iff]
  omega

theorem leState_total (a b : WorkflowState) :
    (leState a b || leState b a) = true := by
  rw [Bool.or_eq_true, leState_iff, leState_iff]
  omega

/-- C8 (counterexample).  The claim says kanban columns follow the same
state-type precedence as the issue sort (started before backlog).  For
the states `[stStarted, stBacklog]` the board produced by `kanban.New`
puts the backlog column first: `sortStatesByType` uses its own
`typeOrder` map (backlog 0 < unstarted 1 < started 2 < completed 3 <
canceled 4, missing types 0), not `stateTypePriority`. -/
theorem kanbanColumns_order_cex :
    (kanbanColumns [] [stStarted, stBacklog]).map Column.state =
      [stBacklog, stStarted] ∧
    stateTypePriority stStarted.type < stateTypePriority stBacklog.type := by
  refine ⟨by decide, by decide⟩

/-- C8 (amended).  The board has one column per workflow state, ordered by
the kanban module's own type order — backlog(0) < unstarted(1) <
started(2) < completed(3) < canceled(4), any other type (e.g. triage)
ranked 0 with backlog — then by position within a type, and each column
holds exactly the issues whose current state matches that column's state
(issues with no state appear in no column). -/
theorem kanbanColumns_correct (issuesList : List Issue) (states : List WorkflowState) :
    (kanbanColumns issuesList states).map Column.state = sortStatesByType states ∧
    (sortStatesByType states).Perm states ∧
    (sortStatesByType states).Pairwise (fun a b =>
      kanbanTypeOrder a.type < kanbanTypeOrder b.type ∨
      (kanbanTypeOrder a.type = kanbanTypeOrder b.type ∧ a.position ≤ b.position)) ∧
    (∀ c ∈ kanbanColumns issuesList states,
      c.issues = issuesList.filter (fun i =>
        match i.state with
        | some st => st.id = c.state.id
        | none => false) ∧
      c.cursor = 0) ∧
    (kanbanTypeOrder "backlog" = 0 ∧ kanbanTypeOrder "unstarted" = 1 ∧
      kanbanTypeOrder "started" = 2 ∧ kanbanTypeOrder "completed" = 3 ∧
      kanbanTypeOrder "canceled" = 4 ∧ kanbanTypeOrder "triage" = 0) := by
  refine ⟨?_, List.perm_insertionSort _ states, ?_, ?_, by decide⟩
  · rw [kanbanColumns, List.map_map]
    exact List.map_id _
  · have h := @List.sorted_insertionSort WorkflowState (fun a b => leState a b = true) _
      ⟨fun a b => Bool.or_eq_true .. |>.mp (leState_total a b)⟩
      ⟨fun a b c => leState_trans a b c⟩ states
    apply h.imp
    intro a b hab
    exact (leState_iff a b).mp hab
  · intro c hc
    rw [kanbanColumns, List.mem_map] at hc
    obtain ⟨st, _, hceq⟩ := hc
    rw [← hceq]
    exact ⟨rfl, rfl⟩

theorem strContains_append_right (a b sub : String)
    (h : strContains b sub = true) : strContains (a ++ b) sub = true := by
  rw [strContains, hasSub_iff_infix] at h ⊢
  rw [String.data_append]
  exact h.trans (List.suffix_append a.data b.data).isInfix

/-- C9 (counterexample).  For the issue ABC-12 (state absent, assignee
absent, empty description) the detail view output contains no "Unknown"
at all — `renderMetadata` skips the Status line entirely when the state
is absent — and the list row contains neither "Unassigned" nor
"No description" (rows show no assignee or description), refuting the
claim that both renderings contain all three fallback strings. -/
theorem detail_absent_state_no_unknown_cex :
    issueNull.state = none ∧ issueNull.assignee = none ∧
    issueNull.description = "" ∧ detailNull.issue = some issueNull ∧
    strContains (detailViewRender detailNull 0) "Unknown" = false ∧
    strContains (renderRow issueNull false 10 20 15) "No description" = false ∧
    strContains (renderRow issueNull false 10 20 15) "Unassigned" = false := by
  refine ⟨rfl, rfl, rfl, rfl, by decide, by decide, by decide⟩

/-- C9 (amended).  Rendering an issue with absent state, absent assignee,
and empty description never fails and produces non-empty output with
these fallbacks: the *list row* shows "Unknown" for the state (rows
display no assignee or description); the *detail view* shows
"Unassigned" for the assignee and "No description" for the description
but omits the status line entirely (no "Unknown") when the state is
absent. -/
theorem render_fallbacks (issue : Issue) (isSel : Bool) (idW titleW w now : Int)
    (hs : issue.state = none) (ha : issue.assignee = none)
    (hd : issue.description = "") :
    strContains (renderRow issue isSel idW titleW 15) "Unknown" = true ∧
    renderRow issue isSel idW titleW 15 ≠ "" ∧
    "Assignee: Unassigned" ∈ renderMetadataParts issue now ∧
    renderDescription issue w = "No description" ∧
    strContains (detailViewRender detailNull 0) "Unassigned" = true ∧
    strContains (detailViewRender detailNull 0) "No description" = true ∧
    detailViewRender detailNull 0 ≠ "" := by
  have hrow : strContains (renderRow issue isSel idW titleW 15) "Unknown" = true := by
    rw [renderRow]
    simp only [hs]
    apply strContains_append_right
    decide
  refine ⟨hrow, ?_, ?_, ?_, by decide, by decide, by decide⟩
  · intro h0
    rw [h0] at hrow
    exact absurd hrow (by decide)
  · rw [renderMetadataParts]
    simp only [hs, ha]
    have : "Assignee: " ++ "Unassigned" = "Assignee: Unassigned" := rfl
    rw [this]
    simp
  · rw [renderDescription, if_pos hd]

/-- Witness for C9 (amended): the concrete issue ABC-12 with all three
fields absent. -/
theorem render_fallbacks_witness :
    strContains (renderRow issueNull false 10 20 15) "Unknown" = true ∧
    "Assignee: Unassigned" ∈ renderMetadataParts issueNull 0 ∧
    renderDescription issueNull 30 = "No description" := by
  have h := render_fallbacks issueNull false 10 20 30 0 rfl rfl rfl
  exact ⟨h.1, h.2.2.1, h.2.2.2.1⟩

theorem listUpdate_issues (m : ListModelS) (k : ListKey) :
    (listUpdate m k).issues = m.issues := by
  cases k <;> simp only [listUpdate] <;> split_ifs <;> rfl

theorem listRun_issues (keys : List ListKey) :
    ∀ init : ListModelS, (listRun init keys).issues = init.issues := by
  induction keys with
  | nil => intro init; rfl
  | cons k ks ih =>
    intro init
    show (listRun (listUpdate init k) ks).issues = init.issues
    rw [ih (listUpdate init k), listUpdate_issues]

theorem listInv_newListModel (issuesList : List Issue) (w h : Int) :
    listInv (newListModel issuesList w h) := by
  refine ⟨le_refl 0, ?_, fun _ => Or.inl rfl, fun hpos => ⟨le_refl 0, hpos⟩⟩
  simp only [newListModel]
  split_ifs <;> omega

theorem listInv_update (m : ListModelS) (k : ListKey) (hm : listInv m) :
    listInv (listUpdate m k) := by
  obtain ⟨h1, h2, h3, h4⟩ := hm
  have hlen : (0 : Int) ≤ m.issues.length := Int.ofNat_nonneg _
  cases k <;>
    unfold listUpdate <;> (try dsimp only) <;> (try split_ifs) <;>
    unfold listInv <;> (try dsimp only) <;> omega

theorem listInv_run (keys : List ListKey) :
    ∀ init : ListModelS, listInv init → listInv (listRun init keys) := by
  induction keys with
  | nil => intro init h; exact h
  | cons k ks ih =>
    intro init h
    exact ih (listUpdate init k) (listInv_update init k h)

/-- C10.  Starting from a freshly constructed list view over any issue
list and applying any sequence of navigation keys: `SelectedIssue` is
`none` or an element of the underlying list; the scroll offset stays
non-negative so every row index the render loop visits is inside the
list; and on an empty list — where `end`/`G` and page-down drive the
internal cursor to -1 — `SelectedIssue` is `none` and the view renders
the non-empty "No issues found" placeholder. -/
theorem listNav_safe (issuesList : List Issue) (w h : Int) (keys : List ListKey) :
    (∀ x, listSelectedIssue (listRun (newListModel issuesList w h) keys) = some x →
        x ∈ issuesList) ∧
    (listRun (newListModel issuesList w h) keys).issues = issuesList ∧
    0 ≤ (listRun (newListModel issuesList w h) keys).offset ∧
    (∀ i : Int, (listRun (newListModel issuesList w h) keys).offset ≤ i →
        i < min ((listRun (newListModel issuesList w h) keys).offset +
                  (listRun (newListModel issuesList w h) keys).pageSize)
                ((listRun (newListModel issuesList w h) keys).issues.length : Int) →
        0 ≤ i ∧ i < ((listRun (newListModel issuesList w h) keys).issues.length : Int)) ∧
    (issuesList = [] →
        listSelectedIssue (listRun (newListModel issuesList w h) keys) = none ∧
        listViewRender (listRun (newListModel issuesList w h) keys) = "No issues found" ∧
        listViewRender (listRun (newListModel issuesList w h) keys) ≠ "") := by
  have hiss : (listRun (newListModel issuesList w h) keys).issues = issuesList :=
    (listRun_issues keys (newListModel issuesList w h)).trans rfl
  have hinv : listInv (listRun (newListModel issuesList w h) keys) :=
    listInv_run keys _ (listInv_newListModel issuesList w h)
  obtain ⟨ho, hp, hc0, hcpos⟩ := hinv
  refine ⟨?_, hiss, ho, ?_, ?_⟩
  · intro x hx
    rw [listSelectedIssue] at hx
    split at hx
    · rename_i hcond
      have hg := List.get_mem (listRun (newListModel issuesList w h) keys).issues _ hcond.2
      rw [Option.some_inj] at hx
      have hmem := hx ▸ hg
      rw [hiss] at hmem
      exact hmem
    · exact absurd hx (by simp)
  · intro i hi1 hi2
    omega
  · intro hempty
    have hlen0 : ((listRun (newListModel issuesList w h) keys).issues.length : Int) = 0 := by
      rw [hiss, hempty]; rfl
    refine ⟨?_, ?_, ?_⟩
    · rw [listSelectedIssue]
      split
      · rename_i hcond
        exfalso
        omega
      · rfl
    · rw [listViewRender, if_pos (by exact_mod_cast hlen0)]
    · rw [listViewRender, if_pos (by exact_mod_cast hlen0)]
      decide

/-- Witness for C1: a concrete three-issue list whose sort evaluates to
the precedence/priority order the theorem describes. -/
theorem sortIssues_correct_witness :
    sortIssues [issueC, issueB, issueA] = [issueA, issueB, issueC] ∧
    (sortIssues [issueC, issueB, issueA]).Perm [issueC, issueB, issueA] ∧
    sortIssues (sortIssues [issueC, issueB, issueA]) =
      sortIssues [issueC, issueB, issueA] := by
  have h := sortIssues_correct [issueC, issueB, issueA]
  exact ⟨by decide, h.1, h.2.2.2.1⟩

/-- Witness for C5 (amended): a failed update against the neutral state. -/
theorem handleMsg_error_paths_witness :
    handleMsg baseState (.issueUpdated none (some "x")) =
      ({ baseState with statusMsg := "Error: " ++ "x", statusErr := true },
        Cmd.none) :=
  (handleMsg_error_paths baseState "x" none [] [] none []
    { hasNextPage := false, endCursor := "" } false none none "" "").2.2.1

/-- Witness for C8 (amended): a two-state board evaluates to backlog
before started, with the issue in the matching column. -/
theorem kanbanColumns_correct_witness :
    (kanbanColumns [issueA] [stStarted, stBacklog]).map Column.state =
      sortStatesByType [stStarted, stBacklog] ∧
    (sortStatesByType [stStarted, stBacklog]).Perm [stStarted, stBacklog] ∧
    kanbanColumns [issueA] [stStarted, stBacklog] =
      [{ state := stBacklog, issues := [], cursor := 0 },
       { state := stStarted, issues := [issueA], cursor := 0 }] := by
  have h := kanbanColumns_correct [issueA] [stStarted, stBacklog]
  exact ⟨h.1, h.2.1, by decide⟩

/-- Witness for C10: on the empty list, `end` followed by page-down (the
keys that drive the cursor to -1) leaves `SelectedIssue` nil and the
placeholder rendered. -/
theorem listNav_safe_witness :
    listSelectedIssue (listRun (newListModel [] 80 20) [.toEnd, .pgDown]) = none ∧
    listViewRender (listRun (newListModel [] 80 20) [.toEnd, .pgDown]) =
      "No issues found" ∧
    (listRun (newListModel [] 80 20) [.toEnd, .pgDown]).cursor = -1 := by
  have h := listNav_safe [] 80 20 [.toEnd, .pgDown]
  exact ⟨(h.2.2.2.2 rfl).1, (h.2.2.2.2 rfl).2.1, by decide⟩

end Lazyliner
